import Mathlib

/-!
Shallow embedding of `fulltext_article_downloader/downloader.py`: the source
classifier (`get_publisher_from_doi`), the fallback orchestrator
(`download_article`) and the batch runner (`bulk_download_articles`), together
with the static tables they use.  The external collaborators — the per-tool
download functions of `tools.py` and the remote metadata registries — are
parameters of the embedding: a tool implementation is a function from (tool
name, doi, output path) to either a produced path or an error string (the
Python `str(e)` of the raised exception), and the remote registry lookup is a
function from doi to an optional publisher name (`None` on any failure, as in
the source).
-/

namespace Downloader

/-- One record of the orchestrator's logging calls inside `download_article`:
the attempt-started line, the success line, the per-tool failure line, or the
final all-methods-failed line. -/
inductive LogEntry where
  | attempt (doi tool : String)
  | success (doi tool path : String)
  | failure (doi tool err : String)
  | allFailed (msg : String)
deriving DecidableEq, Repr

/-- `PUBLISHER_TOOL_MAP` from `downloader.py`: publisher name to preferred
tool order. -/
def PUBLISHER_TOOL_MAP : List (String × List String) := [
  ("Elsevier BV", ["unpaywall", "elsevier"]),
  ("Springer Science and Business Media LLC", ["springerpdf", "unpaywall", "springeropen"]),
  ("Wiley", ["wiley", "unpaywall"]),
  ("American Chemical Society (ACS)", ["unpaywall"]),
  ("Royal Society of Chemistry (RSC)", ["unpaywall"]),
  ("American Institute of Physics (AIP)", ["unpaywall"]),
  ("American Physical Society (APS)", ["aps", "unpaywall"]),
  ("Oxford University Press (OUP)", ["unpaywall"]),
  ("Cambridge University Press (CUP)", ["cambridge", "unpaywall"]),
  ("Taylor & Francis", ["unpaywall"]),
  ("Public Library of Science (PLoS)", ["plos", "unpaywall"]),
  ("bioRxiv", ["paperscraper", "unpaywall"]),
  ("medRxiv", ["paperscraper", "unpaywall"]),
  ("chemRxiv", ["paperscraper", "unpaywall"]),
  ("arXiv", ["paperscraper", "arxiv", "unpaywall"]),
  ("eLife Sciences Publications, Ltd", ["elife", "unpaywall"]),
  ("Institute of Electrical and Electronics Engineers (IEEE)", ["unpaywall"])
]

/-- `PREPRINT_SERVER_PREFIXES` from `downloader.py`: DOI registrant prefix to
known preprint server, used for classification without API calls. -/
def PREPRINT_SERVER_PREFIXES : List (String × String) := [
  ("10.1101", "bioRxiv"),
  ("10.21203", "Research Square"),
  ("10.31219", "OSF Preprints"),
  ("10.20944", "Preprints.org"),
  ("10.26434", "chemRxiv"),
  ("10.22541", "medRxiv"),
  ("10.31730", "EarthArXiv"),
  ("10.1149", "ECSarXiv"),
  ("10.3886", "SSRN"),
  ("10.33774", "Cambridge Open Engage"),
  ("10.2139", "SSRN"),
  ("10.53731", "arXiv"),
  ("10.48550", "arXiv"),
  ("10.57967", "engRxiv"),
  ("10.3389", "Frontiers Media SA"),
  ("10.4175", "Frontiers Media SA")
]

/-- Keys of the `TOOL_FUNCTIONS` dict in `downloader.py`, in source order. -/
def TOOL_NAMES : List String :=
  ["elsevier", "springerpdf", "wiley", "plos", "unpaywall", "springeropen",
   "crossref_tdm", "arxiv", "elife", "paperscraper", "aps", "cambridge"]

/-- A tool implementation: the behaviour of `TOOL_FUNCTIONS[tool](doi, path)`
for each registered tool — returns the produced path or fails with the
exception's message. -/
abbrev ToolImpl := String → String → String → Except String String

/-- `doi.split('/')[0]`: the registrant prefix of a DOI — the characters
before the first slash (the whole string when there is no slash). -/
def doiRegistrant (doi : String) : String :=
  String.mk (doi.data.takeWhile (fun c => c != '/'))

/-- `get_publisher_from_doi`: check the static prefix table on the substring
before the first slash; only when the prefix is absent query the remote
registries, modelled by the `remote` parameter (which is `none` on any
lookup failure, as in the source's exception handler). -/
def get_publisher_from_doi (remote : String → Option String) (doi : String) :
    Option String :=
  match PREPRINT_SERVER_PREFIXES.lookup (doiRegistrant doi) with
  | some srv => some srv
  | none => remote doi

/-- The string form of a Python `KeyError(k)`: the key wrapped in single
quotes, as produced by `str(e)` when `TOOL_FUNCTIONS[tool]` misses. -/
def keyErrorMsg (k : String) : String := "\x27" ++ k ++ "\x27"

/-- The evaluation of `TOOL_FUNCTIONS[tool](doi, outputPath)` inside the
orchestrator's `try` block: a missing key raises `KeyError`, caught by the
same `except` as any tool failure. -/
def callTool (impl : ToolImpl) (tool doi outputPath : String) :
    Except String String :=
  if TOOL_NAMES.contains tool then impl tool doi outputPath
  else Except.error (keyErrorMsg tool)

/-- The character class of `re.sub(r'[^A-Za-z0-9._-]', '_', doi)`. -/
def allowedChar (c : Char) : Bool :=
  (('A' ≤ c && c ≤ 'Z') || ('a' ≤ c && c ≤ 'z') || ('0' ≤ c && c ≤ '9')
    || c == '.' || c == '_' || c == '-')

/-- `base_name = re.sub` of the disallowed class to underscore. -/
def sanitize (doi : String) : String :=
  String.mk (doi.data.map (fun c => if allowedChar c then c else '_'))

/-- Largest index at or after `i` (in the original list) holding `c`;
helper for `rfind`. -/
def rfindAux (c : Char) : List Char → Nat → Option Nat
  | [], _ => none
  | x :: xs, i =>
    match rfindAux c xs (i + 1) with
    | some j => some j
    | none => if x == c then some i else none

/-- Index of the last occurrence of `c` in `l` (Python `str.rfind`,
with `none` for -1). -/
def rfind (l : List Char) (c : Char) : Option Nat := rfindAux c l 0

/-- The index right after the last slash (the start of the base name);
0 when there is no slash.  `dotIndex > sepIndex` in CPython becomes
`splitextStart l ≤ d` here. -/
def splitextStart (l : List Char) : Nat :=
  match rfind l '/' with
  | none => 0
  | some s => s + 1

/-- `os.path.splitext` on POSIX (CPython `genericpath._splitext` with
separator slash and extension separator dot): split at the last dot that
comes after the last slash, unless every character between the slash and
that dot is itself a dot (a leading-dots file name has no extension). -/
def splitext (p : String) : String × String :=
  match rfind p.data '.' with
  | none => (p, "")
  | some d =>
    if splitextStart p.data ≤ d then
      if (List.range (d - splitextStart p.data)).all
          (fun k => p.data.getD (splitextStart p.data + k) ' ' == '.') then
        (p, "")
      else
        (String.mk (p.data.take d), String.mk (p.data.drop d))
    else (p, "")

/-- The per-tool output extension: `".xml" if tool in ["elsevier",
"springeropen"] else ".pdf"`. -/
def extForTool (tool : String) : String :=
  if ["elsevier", "springeropen"].contains tool then ".xml" else ".pdf"

/-- The `out_name` computed for one loop iteration of `download_article`:
reuse a provided filename (appending the tool's extension only when
`os.path.splitext` finds none), else the sanitized DOI plus the tool's
extension. -/
def computeOutName (outputFilename : Option String) (doi tool : String) :
    String :=
  match outputFilename with
  | some fname =>
    if (splitext fname).2 == "" then (splitext fname).1 ++ extForTool tool
    else fname
  | none => sanitize doi ++ extForTool tool

/-- `os.path.join` on POSIX for two components. -/
def pathJoin (a b : String) : String :=
  if b.startsWith "/" then b
  else if a == "" || a.endsWith "/" then a ++ b
  else a ++ "/" ++ b

/-- `output_path = os.path.join(output_dir, out_name)` for one iteration. -/
def outPathFor (outputDir : String) (outputFilename : Option String)
    (doi tool : String) : String :=
  pathJoin outputDir (computeOutName outputFilename doi tool)

/-- `error_msg` as first built: `f"All download methods failed for DOI
{doi}."` — this is also the message passed to `logger.error`. -/
def baseFailMsg (doi : String) : String :=
  "All download methods failed for DOI " ++ doi ++ "."

/-- The message of the exception raised after the loop: the base message,
extended with the last tool error when one was recorded. -/
def allFailedMsg (doi : String) (lastErr : Option String) : String :=
  match lastErr with
  | none => baseFailMsg doi
  | some e => baseFailMsg doi ++ " Last error: " ++ e

/-- The `for tool in method_list` loop of `download_article`, with the
running `last_exception` made explicit.  Returns the outcome (`ok` with the
path the successful tool returned, or `error` with the raised aggregate
message) paired with the log entries emitted from this point on. -/
def downloadLoop (impl : ToolImpl) (doi outputDir : String)
    (outputFilename : Option String) :
    Option String → List String → Except String String × List LogEntry
  | lastErr, [] =>
    (Except.error (allFailedMsg doi lastErr), [LogEntry.allFailed (baseFailMsg doi)])
  | _lastErr, tool :: rest =>
    let outputPath := outPathFor outputDir outputFilename doi tool
    match callTool impl tool doi outputPath with
    | Except.ok p =>
      (Except.ok p, [LogEntry.attempt doi tool, LogEntry.success doi tool p])
    | Except.error e =>
      let next := downloadLoop impl doi outputDir outputFilename (some e) rest
      (next.1, LogEntry.attempt doi tool :: LogEntry.failure doi tool e :: next.2)

/-- The `method_list` derivation of `download_article`: explicit `tools`
bypass classification; otherwise classify and look up the publisher, with
`["unpaywall", "crossref_tdm"]` when the publisher is falsy or unmapped. -/
def methodListFor (remote : String → Option String) (doi : String)
    (tools : Option (List String)) : List String :=
  match tools with
  | none =>
    match get_publisher_from_doi remote doi with
    | some publisher =>
      (PUBLISHER_TOOL_MAP.lookup publisher).getD ["unpaywall", "crossref_tdm"]
    | none => ["unpaywall", "crossref_tdm"]
  | some ts => ts

/-- `download_article(doi, output_dir, output_filename, tools)`: derive the
method list, then run the fallback loop.  Filesystem and logging-handler
side effects are not modelled; the log entries record the logger calls. -/
def download_article (impl : ToolImpl) (remote : String → Option String)
    (doi outputDir : String) (outputFilename : Option String)
    (tools : Option (List String)) : Except String String × List LogEntry :=
  downloadLoop impl doi outputDir outputFilename none (methodListFor remote doi tools)

/-- The string stored in `results[doi]` by `bulk_download_articles`: the
returned path on success, `"ERROR: " + str(e)` on failure. -/
def resultString (impl : ToolImpl) (remote : String → Option String)
    (doi outputDir : String) : String :=
  match (download_article impl remote doi outputDir none none).1 with
  | Except.ok path => path
  | Except.error e => "ERROR: " ++ e

/-- `results[k] = v` on a Python dict represented as an insertion-ordered
association list: an existing key keeps its position and gets the new value,
a new key is appended. -/
def dictInsert (d : List (String × String)) (k v : String) :
    List (String × String) :=
  if d.any (fun p => p.1 == k) then
    d.map (fun p => if p.1 == k then (k, v) else p)
  else d ++ [(k, v)]

/-- `bulk_download_articles(dois, output_dir)`: for each DOI in order, run
`download_article` with default strategy selection, catching any failure into
an `"ERROR: ..."` entry of the result dict.  The tqdm progress bar, inter-item
sleep and console printing have no effect on the returned mapping and are not
modelled. -/
def bulk_download_articles (impl : ToolImpl) (remote : String → Option String)
    (dois : List String) (outputDir : String) : List (String × String) :=
  dois.foldl
    (fun results doi => dictInsert results doi (resultString impl remote doi outputDir))
    []

/-- The `failed` list of the end-of-run summary: keys whose value starts
with `"ERROR"` (the `isinstance(res, str)` guard is vacuous here since every
stored value is a string). -/
def batchFailed (results : List (String × String)) : List String :=
  (results.filter (fun p => p.2.startsWith "ERROR")).map (fun p => p.1)

/-- The attempt-started records of a log, as (doi, tool) pairs in order. -/
def attemptsOf : List LogEntry → List (String × String)
  | [] => []
  | LogEntry.attempt d t :: rest => (d, t) :: attemptsOf rest
  | _ :: rest => attemptsOf rest

/-- Whether a tool call failed. -/
def isErr : Except String String → Bool
  | Except.error _ => true
  | Except.ok _ => false

/-- A concrete tool behaviour for witnesses: `unpaywall` succeeds with a
fixed path, every other tool fails with `"boom"`. -/
def implBoomOk : ToolImpl := fun tool _ _ =>
  if tool == "unpaywall" then Except.ok "out/p.pdf" else Except.error "boom"

/-- A concrete tool behaviour for witnesses: every tool fails. -/
def implBoom : ToolImpl := fun _ _ _ => Except.error "boom"

/-- A remote registry that resolves nothing. -/
def remoteNone : String → Option String := fun _ => none

/-- C4: for every identifier, calling `download_article` with an explicitly
supplied empty strategy list fails immediately with the aggregated error
(no last-error suffix), with zero attempts recorded and no strategy invoked
(the outcome does not depend on the tool implementations at all). -/
theorem c4_empty_strategy_list (impl : ToolImpl) (remote : String → Option String)
    (doi outputDir : String) (outputFilename : Option String) :
    download_article impl remote doi outputDir outputFilename (some []) =
      (Except.error (baseFailMsg doi), [LogEntry.allFailed (baseFailMsg doi)]) ∧
    attemptsOf (download_article impl remote doi outputDir outputFilename (some [])).2 = [] :=
  ⟨rfl, rfl⟩

/-- C5: an identifier whose registrant prefix (before the first slash) is in
the static prefix table classifies to the mapped source for every behaviour
of the remote registries (hence without any network call); in particular the
two scenario DOIs classify to arXiv and bioRxiv, whose strategy lists start
with paperscraper before unpaywall. -/
theorem c5_static_prefix_classification (remote : String → Option String)
    (doi src : String)
    (h : PREPRINT_SERVER_PREFIXES.lookup (doiRegistrant doi) = some src) :
    get_publisher_from_doi remote doi = some src ∧
    get_publisher_from_doi remote "10.48550/arXiv.2504.00812" = some "arXiv" ∧
    get_publisher_from_doi remote "10.1101/2025.01.06.631505" = some "bioRxiv" ∧
    PUBLISHER_TOOL_MAP.lookup "arXiv" = some ["paperscraper", "arxiv", "unpaywall"] ∧
    PUBLISHER_TOOL_MAP.lookup "bioRxiv" = some ["paperscraper", "unpaywall"] := by
  refine ⟨?_, ?_, ?_, by decide, by decide⟩
  · unfold get_publisher_from_doi
    rw [h]
  · unfold get_publisher_from_doi
    rw [show PREPRINT_SERVER_PREFIXES.lookup (doiRegistrant "10.48550/arXiv.2504.00812") =
        some "arXiv" by decide]
  · unfold get_publisher_from_doi
    rw [show PREPRINT_SERVER_PREFIXES.lookup (doiRegistrant "10.1101/2025.01.06.631505") =
        some "bioRxiv" by decide]

/-- C5 witness: a remote registry that would answer `Wiley` is ignored for a
DOI with the bioRxiv prefix. -/
theorem c5_static_prefix_classification_witness :
    get_publisher_from_doi (fun _ => some "Wiley") "10.1101/xyz" = some "bioRxiv" ∧
    get_publisher_from_doi (fun _ => some "Wiley") "10.48550/arXiv.2504.00812" = some "arXiv" ∧
    get_publisher_from_doi (fun _ => some "Wiley") "10.1101/2025.01.06.631505" = some "bioRxiv" ∧
    PUBLISHER_TOOL_MAP.lookup "arXiv" = some ["paperscraper", "arxiv", "unpaywall"] ∧
    PUBLISHER_TOOL_MAP.lookup "bioRxiv" = some ["paperscraper", "unpaywall"] :=
  c5_static_prefix_classification (fun _ => some "Wiley") "10.1101/xyz" "bioRxiv" (by decide)

/-- C6: when classification is unresolved, or resolves to a source absent
from the strategy table, `download_article` runs the default list
`["unpaywall", "crossref_tdm"]`; and an explicitly supplied strategy list is
used exactly as given, with no classification performed (the result is
independent of the remote registries). -/
theorem c6_default_list_and_override (impl : ToolImpl)
    (remote remote2 : String → Option String) (doi outputDir : String)
    (outputFilename : Option String) (ts : List String)
    (h : get_publisher_from_doi remote doi = none ∨
      ∃ src, get_publisher_from_doi remote doi = some src ∧
        PUBLISHER_TOOL_MAP.lookup src = none) :
    download_article impl remote doi outputDir outputFilename none =
      downloadLoop impl doi outputDir outputFilename none ["unpaywall", "crossref_tdm"] ∧
    download_article impl remote doi outputDir outputFilename (some ts) =
      downloadLoop impl doi outputDir outputFilename none ts ∧
    download_article impl remote doi outputDir outputFilename (some ts) =
      download_article impl remote2 doi outputDir outputFilename (some ts) := by
  refine ⟨?_, rfl, rfl⟩
  unfold download_article methodListFor
  rcases h with h | ⟨src, h1, h2⟩
  · rw [h]
  · rw [h1]
    show downloadLoop impl doi outputDir outputFilename none
      ((PUBLISHER_TOOL_MAP.lookup src).getD ["unpaywall", "crossref_tdm"]) =
      downloadLoop impl doi outputDir outputFilename none ["unpaywall", "crossref_tdm"]
    rw [h2]
    rfl

/-- C6 witness: an unknown prefix with a silent remote registry takes the
default list, and an explicit list bypasses classification. -/
theorem c6_default_list_and_override_witness :
    download_article implBoom remoteNone "10.9999/x" "out" none none =
      downloadLoop implBoom "10.9999/x" "out" none none ["unpaywall", "crossref_tdm"] ∧
    download_article implBoom remoteNone "10.9999/x" "out" none (some ["wiley"]) =
      downloadLoop implBoom "10.9999/x" "out" none none ["wiley"] ∧
    download_article implBoom remoteNone "10.9999/x" "out" none (some ["wiley"]) =
      download_article implBoom (fun _ => some "Wiley") "10.9999/x" "out" none (some ["wiley"]) := by
  refine c6_default_list_and_override implBoom remoteNone (fun _ => some "Wiley")
    "10.9999/x" "out" none ["wiley"] (Or.inl ?_)
  unfold get_publisher_from_doi
  rw [show PREPRINT_SERVER_PREFIXES.lookup (doiRegistrant "10.9999/x") = none by decide]
  rfl

/-- C9: an explicitly supplied strategy name missing from the tool-function
table is treated as an ordinary attempt failure — the attempt and its
`KeyError` detail are logged, the detail is retained as the last error, and
the orchestrator continues with the rest of the list instead of raising a
distinct programming error. -/
theorem c9_unknown_tool_ordinary_failure (impl : ToolImpl)
    (remote : String → Option String) (doi outputDir : String)
    (outputFilename : Option String) (bad : String) (rest : List String)
    (h : TOOL_NAMES.contains bad = false) :
    (download_article impl remote doi outputDir outputFilename (some (bad :: rest))).1 =
      (downloadLoop impl doi outputDir outputFilename (some (keyErrorMsg bad)) rest).1 ∧
    (download_article impl remote doi outputDir outputFilename (some (bad :: rest))).2 =
      LogEntry.attempt doi bad :: LogEntry.failure doi bad (keyErrorMsg bad) ::
        (downloadLoop impl doi outputDir outputFilename (some (keyErrorMsg bad)) rest).2 := by
  have h2 : bad ∉ TOOL_NAMES := by simpa using h
  constructor <;> simp [download_article, methodListFor, downloadLoop, callTool, h2]

/-- C9 witness: the unknown name `wiley2` is logged and skipped, and the
loop continues with `unpaywall`. -/
theorem c9_unknown_tool_ordinary_failure_witness :
    (download_article implBoomOk remoteNone "10.1/x" "out" none (some ["wiley2", "unpaywall"])).1 =
      (downloadLoop implBoomOk "10.1/x" "out" none (some (keyErrorMsg "wiley2")) ["unpaywall"]).1 ∧
    (download_article implBoomOk remoteNone "10.1/x" "out" none (some ["wiley2", "unpaywall"])).2 =
      LogEntry.attempt "10.1/x" "wiley2" :: LogEntry.failure "10.1/x" "wiley2" (keyErrorMsg "wiley2") ::
        (downloadLoop implBoomOk "10.1/x" "out" none (some (keyErrorMsg "wiley2")) ["unpaywall"]).2 :=
  c9_unknown_tool_ordinary_failure implBoomOk remoteNone "10.1/x" "out" none
    "wiley2" ["unpaywall"] (by decide)

theorem downloadLoop_first_success (impl : ToolImpl) (doi outputDir : String)
    (outputFilename : Option String) (ts : List String) (K : Nat)
    (lastErr : Option String) (p : String) (hK : K < ts.length)
    (hfail : ∀ i (hi : i < K),
      isErr (callTool impl (ts.get ⟨i, Nat.lt_trans hi hK⟩) doi
        (outPathFor outputDir outputFilename doi (ts.get ⟨i, Nat.lt_trans hi hK⟩))) = true)
    (hsucc : callTool impl (ts.get ⟨K, hK⟩) doi
      (outPathFor outputDir outputFilename doi (ts.get ⟨K, hK⟩)) = Except.ok p) :
    (downloadLoop impl doi outputDir outputFilename lastErr ts).1 = Except.ok p ∧
    attemptsOf (downloadLoop impl doi outputDir outputFilename lastErr ts).2 =
      (ts.take (K + 1)).map (fun t => (doi, t)) := by
  induction ts generalizing K lastErr with
  | nil => exact absurd hK (Nat.not_lt_zero K)
  | cons tool rest ih =>
    cases K with
    | zero =>
      have hs : callTool impl tool doi
          (outPathFor outputDir outputFilename doi tool) = Except.ok p := hsucc
      constructor
      · show (match callTool impl tool doi
            (outPathFor outputDir outputFilename doi tool) with
          | Except.ok q =>
            (Except.ok q, [LogEntry.attempt doi tool, LogEntry.success doi tool q])
          | Except.error e =>
            ((downloadLoop impl doi outputDir outputFilename (some e) rest).1,
              LogEntry.attempt doi tool :: LogEntry.failure doi tool e ::
                (downloadLoop impl doi outputDir outputFilename (some e) rest).2) :
            Except String String × List LogEntry).1 = Except.ok p
        rw [hs]
      · show attemptsOf (match callTool impl tool doi
            (outPathFor outputDir outputFilename doi tool) with
          | Except.ok q =>
            (Except.ok q, [LogEntry.attempt doi tool, LogEntry.success doi tool q])
          | Except.error e =>
            ((downloadLoop impl doi outputDir outputFilename (some e) rest).1,
              LogEntry.attempt doi tool :: LogEntry.failure doi tool e ::
                (downloadLoop impl doi outputDir outputFilename (some e) rest).2) :
            Except String String × List LogEntry).2 = _
        rw [hs]
        rfl
    | succ K =>
      have h0 : isErr (callTool impl tool doi
          (outPathFor outputDir outputFilename doi tool)) = true :=
        hfail 0 (Nat.succ_pos K)
      obtain ⟨e, he⟩ : ∃ e, callTool impl tool doi
          (outPathFor outputDir outputFilename doi tool) = Except.error e := by
        cases hcall : callTool impl tool doi
            (outPathFor outputDir outputFilename doi tool) with
        | ok q => rw [hcall] at h0; exact absurd h0 (by simp [isErr])
        | error e => exact ⟨e, rfl⟩
      have hrest := ih K (some e) (Nat.lt_of_succ_lt_succ hK)
        (fun i hi => hfail (i + 1) (Nat.succ_lt_succ hi)) hsucc
      constructor
      · show (match callTool impl tool doi
            (outPathFor outputDir outputFilename doi tool) with
          | Except.ok q =>
            (Except.ok q, [LogEntry.attempt doi tool, LogEntry.success doi tool q])
          | Except.error e2 =>
            ((downloadLoop impl doi outputDir outputFilename (some e2) rest).1,
              LogEntry.attempt doi tool :: LogEntry.failure doi tool e2 ::
                (downloadLoop impl doi outputDir outputFilename (some e2) rest).2) :
            Except String String × List LogEntry).1 = Except.ok p
        rw [he]
        exact hrest.1
      · show attemptsOf (match callTool impl tool doi
            (outPathFor outputDir outputFilename doi tool) with
          | Except.ok q =>
            (Except.ok q, [LogEntry.attempt doi tool, LogEntry.success doi tool q])
          | Except.error e2 =>
            ((downloadLoop impl doi outputDir outputFilename (some e2) rest).1,
              LogEntry.attempt doi tool :: LogEntry.failure doi tool e2 ::
                (downloadLoop impl doi outputDir outputFilename (some e2) rest).2) :
            Except String String × List LogEntry).2 = _
        rw [he]
        show (doi, tool) :: attemptsOf
            (downloadLoop impl doi outputDir outputFilename (some e) rest).2 = _
        rw [hrest.2]
        rfl

/-- C1: for every identifier and strategy list in which the first K
strategies fail and strategy K+1 succeeds, `download_article` returns the
path produced by strategy K+1 and records exactly K+1 attempt log entries,
in list order; every invocation logs an attempt first, so no strategy after
K+1 is invoked. -/
theorem c1_first_success_wins (impl : ToolImpl) (remote : String → Option String)
    (doi outputDir : String) (outputFilename : Option String)
    (ts : List String) (K : Nat) (p : String) (hK : K < ts.length)
    (hfail : ∀ i (hi : i < K),
      isErr (callTool impl (ts.get ⟨i, Nat.lt_trans hi hK⟩) doi
        (outPathFor outputDir outputFilename doi (ts.get ⟨i, Nat.lt_trans hi hK⟩))) = true)
    (hsucc : callTool impl (ts.get ⟨K, hK⟩) doi
      (outPathFor outputDir outputFilename doi (ts.get ⟨K, hK⟩)) = Except.ok p) :
    (download_article impl remote doi outputDir outputFilename (some ts)).1 = Except.ok p ∧
    attemptsOf (download_article impl remote doi outputDir outputFilename (some ts)).2 =
      (ts.take (K + 1)).map (fun t => (doi, t)) :=
  downloadLoop_first_success impl doi outputDir outputFilename ts K none p hK hfail hsucc

/-- C1 witness: `wiley` fails, then `unpaywall` succeeds; two attempts are
recorded, in order. -/
theorem c1_first_success_wins_witness :
    (download_article implBoomOk remoteNone "10.1/x" "out" none
      (some ["wiley", "unpaywall"])).1 = Except.ok "out/p.pdf" ∧
    attemptsOf (download_article implBoomOk remoteNone "10.1/x" "out" none
      (some ["wiley", "unpaywall"])).2 =
      ((["wiley", "unpaywall"].take 2).map (fun t => ("10.1/x", t))) :=
  c1_first_success_wins implBoomOk remoteNone "10.1/x" "out" none
    ["wiley", "unpaywall"] 1 "out/p.pdf" (by decide)
    (fun i hi => by
      have hz : i = 0 := Nat.lt_one_iff.mp hi
      subst hz
      rfl)
    (by rfl)

theorem downloadLoop_all_fail (impl : ToolImpl) (doi outputDir : String)
    (outputFilename : Option String) (ts : List String) (errf : Nat → String)
    (lastErr : Option String) (hne : ts ≠ [])
    (hfail : ∀ i (hi : i < ts.length),
      callTool impl (ts.get ⟨i, hi⟩) doi
        (outPathFor outputDir outputFilename doi (ts.get ⟨i, hi⟩)) =
        Except.error (errf i)) :
    (downloadLoop impl doi outputDir outputFilename lastErr ts).1 =
      Except.error (allFailedMsg doi (some (errf (ts.length - 1)))) := by
  induction ts generalizing errf lastErr with
  | nil => exact absurd rfl hne
  | cons tool rest ih =>
    have h0 : callTool impl tool doi
        (outPathFor outputDir outputFilename doi tool) = Except.error (errf 0) :=
      hfail 0 (Nat.succ_pos _)
    show (match callTool impl tool doi
        (outPathFor outputDir outputFilename doi tool) with
      | Except.ok q =>
        (Except.ok q, [LogEntry.attempt doi tool, LogEntry.success doi tool q])
      | Except.error e =>
        ((downloadLoop impl doi outputDir outputFilename (some e) rest).1,
          LogEntry.attempt doi tool :: LogEntry.failure doi tool e ::
            (downloadLoop impl doi outputDir outputFilename (some e) rest).2) :
        Except String String × List LogEntry).1 = _
    rw [h0]
    cases rest with
    | nil => rfl
    | cons t2 r2 =>
      have hrest := ih (fun i => errf (i + 1)) (some (errf 0)) (by simp)
        (fun i hi => hfail (i + 1) (Nat.succ_lt_succ hi))
      show (downloadLoop impl doi outputDir outputFilename
          (some (errf 0)) (t2 :: r2)).1 = _
      rw [hrest]
      have hlen : (t2 :: r2).length - 1 + 1 = (tool :: t2 :: r2).length - 1 := by
        simp
      rw [show (fun i => errf (i + 1)) ((t2 :: r2).length - 1) =
        errf ((tool :: t2 :: r2).length - 1) from hlen ▸ rfl]

/-- C2: for every identifier and non-empty strategy list in which every
strategy fails, `download_article` raises the aggregated error, whose
message names the identifier and ends with the failure detail of the last
strategy attempted — in particular no output path is returned. -/
theorem c2_all_fail_raises_aggregate (impl : ToolImpl)
    (remote : String → Option String) (doi outputDir : String)
    (outputFilename : Option String) (ts : List String) (errf : Nat → String)
    (hne : ts ≠ [])
    (hfail : ∀ i (hi : i < ts.length),
      callTool impl (ts.get ⟨i, hi⟩) doi
        (outPathFor outputDir outputFilename doi (ts.get ⟨i, hi⟩)) =
        Except.error (errf i)) :
    (download_article impl remote doi outputDir outputFilename (some ts)).1 =
      Except.error ("All download methods failed for DOI " ++ doi ++ "."
        ++ " Last error: " ++ errf (ts.length - 1)) :=
  downloadLoop_all_fail impl doi outputDir outputFilename ts errf none hne hfail

/-- C2 witness: two strategies, both failing with `boom`; the raised message
names the DOI and carries the last `boom`. -/
theorem c2_all_fail_raises_aggregate_witness :
    (download_article implBoom remoteNone "10.1/x" "out" none
      (some ["wiley", "unpaywall"])).1 =
      Except.error ("All download methods failed for DOI " ++ "10.1/x" ++ "."
        ++ " Last error: " ++ (fun _ => "boom") (["wiley", "unpaywall"].length - 1)) :=
  c2_all_fail_raises_aggregate implBoom remoteNone "10.1/x" "out" none
    ["wiley", "unpaywall"] (fun _ => "boom") (by simp)
    (fun i hi => by
      have hi2 : i < 2 := by simpa using hi
      interval_cases i <;> rfl)

theorem dictInsert_of_not_mem (acc : List (String × String)) (k v : String)
    (h : ∀ q ∈ acc, q.1 ≠ k) : dictInsert acc k v = acc ++ [(k, v)] := by
  unfold dictInsert
  rw [if_neg]
  intro hany
  obtain ⟨q, hq, hqk⟩ := List.any_eq_true.mp hany
  exact h q hq (by simpa using hqk)

theorem bulk_fold_of_fresh (f : String → String) (dois : List String) :
    ∀ (acc : List (String × String)), dois.Nodup →
      (∀ d ∈ dois, ∀ q ∈ acc, q.1 ≠ d) →
      dois.foldl (fun results doi => dictInsert results doi (f doi)) acc =
        acc ++ dois.map (fun d => (d, f d)) := by
  induction dois with
  | nil => intro acc _ _; simp
  | cons d rest ih =>
    intro acc hnd hacc
    have hfresh : ∀ q ∈ acc, q.1 ≠ d := hacc d (List.mem_cons_self d rest)
    have hnd2 := List.nodup_cons.mp hnd
    show List.foldl _ (dictInsert acc d (f d)) rest = _
    rw [dictInsert_of_not_mem acc d (f d) hfresh]
    rw [ih (acc ++ [(d, f d)]) hnd2.2 ?_]
    · simp
    · intro d2 hd2 q hq
      rcases List.mem_append.mp hq with hq | hq
      · exact hacc d2 (List.mem_cons_of_mem d hd2) q hq
      · rw [List.mem_singleton.mp hq]
        intro hdd
        rw [← hdd] at hd2
        exact hnd2.1 hd2

/-- C3 counterexample: a batch of two equal identifiers yields a single
result entry, not two — the result dict is keyed by identifier, so a
duplicate input overwrites instead of adding an entry. -/
theorem c3_counterexample_duplicate_inputs :
    ["10.1/a", "10.1/a"].length = 2 ∧
    (bulk_download_articles implBoom remoteNone ["10.1/a", "10.1/a"] "out").length = 1 :=
  ⟨rfl, rfl⟩

/-- C3 (amended): for every list of pairwise-distinct input identifiers,
`bulk_download_articles` returns exactly one entry per input identifier, in
input order, each mapped to its output path or error description and written
exactly once, never removed or overwritten. -/
theorem c3_batch_one_entry_per_distinct_input (impl : ToolImpl)
    (remote : String → Option String) (dois : List String) (outputDir : String)
    (h : dois.Nodup) :
    bulk_download_articles impl remote dois outputDir =
      dois.map (fun d => (d, resultString impl remote d outputDir)) := by
  have := bulk_fold_of_fresh (fun d => resultString impl remote d outputDir)
    dois [] h (by simp)
  simpa [bulk_download_articles] using this

/-- C3 (amended) witness: two distinct identifiers give exactly their two
entries in order. -/
theorem c3_batch_one_entry_per_distinct_input_witness :
    bulk_download_articles implBoomOk remoteNone ["10.1/a", "10.2/b"] "out" =
      ["10.1/a", "10.2/b"].map
        (fun d => (d, resultString implBoomOk remoteNone d "out")) :=
  c3_batch_one_entry_per_distinct_input implBoomOk remoteNone
    ["10.1/a", "10.2/b"] "out" (by decide)

theorem dictInsert_mem_self (acc : List (String × String)) (k v : String) :
    (k, v) ∈ dictInsert acc k v := by
  unfold dictInsert
  by_cases h : acc.any (fun p => p.1 == k) = true
  · rw [if_pos h]
    obtain ⟨q, hq, hqk⟩ := List.any_eq_true.mp h
    exact List.mem_map.mpr ⟨q, hq, by simp [hqk]⟩
  · rw [if_neg h]
    exact List.mem_append_right _ (List.mem_singleton.mpr rfl)

theorem dictInsert_preserves (acc : List (String × String)) (k v k2 v2 : String)
    (hmem : (k, v) ∈ acc) (hcase : k2 ≠ k ∨ v2 = v) :
    (k, v) ∈ dictInsert acc k2 v2 := by
  unfold dictInsert
  by_cases hany : acc.any (fun p => p.1 == k2) = true
  · rw [if_pos hany]
    refine List.mem_map.mpr ⟨(k, v), hmem, ?_⟩
    by_cases hk : k = k2
    · subst hk
      rcases hcase with hne | rfl
      · exact absurd rfl hne
      · simp
    · simp [hk]
  · rw [if_neg hany]
    exact List.mem_append_left _ hmem

theorem bulk_fold_preserves (f : String → String) (k : String)
    (dois : List String) :
    ∀ (acc : List (String × String)), (k, f k) ∈ acc →
      (k, f k) ∈ dois.foldl (fun results doi => dictInsert results doi (f doi)) acc := by
  induction dois with
  | nil => intro acc h; exact h
  | cons d rest ih =>
    intro acc h
    apply ih
    by_cases hd : d = k
    · subst hd
      exact dictInsert_preserves acc d (f d) d (f d) h (Or.inr rfl)
    · exact dictInsert_preserves acc k (f k) d (f d) h (Or.inl hd)

theorem bulk_fold_mem (f : String → String) (k : String) (dois : List String) :
    ∀ (acc : List (String × String)), k ∈ dois →
      (k, f k) ∈ dois.foldl (fun results doi => dictInsert results doi (f doi)) acc := by
  induction dois with
  | nil => intro acc h; exact absurd h (List.not_mem_nil k)
  | cons d rest ih =>
    intro acc hk
    rcases List.mem_cons.mp hk with rfl | hmem
    · exact bulk_fold_preserves f k rest _ (dictInsert_mem_self acc k (f k))
    · exact ih _ hmem

/-- C8: every input identifier, including every one whose resolution fails,
ends up with its own entry in the batch result — a failure is stored as the
`"ERROR: ..."` entry for that identifier and never prevents the entries of
the other identifiers (the batch function itself is total and never
raises). -/
theorem c8_batch_isolation (impl : ToolImpl) (remote : String → Option String)
    (dois : List String) (outputDir : String) (d : String) (h : d ∈ dois) :
    (d, resultString impl remote d outputDir) ∈
      bulk_download_articles impl remote dois outputDir ∧
    (∀ e, (download_article impl remote d outputDir none none).1 = Except.error e →
      (d, "ERROR: " ++ e) ∈ bulk_download_articles impl remote dois outputDir) := by
  have hm := bulk_fold_mem (fun d2 => resultString impl remote d2 outputDir)
    d dois [] h
  refine ⟨hm, fun e he => ?_⟩
  have hv : resultString impl remote d outputDir = "ERROR: " ++ e := by
    unfold resultString
    rw [he]
  exact hv ▸ hm

/-- C8 witness: with every tool failing, the first identifier's error entry
is present and the second identifier still got its entry. -/
theorem c8_batch_isolation_witness :
    ("10.1/a", resultString implBoom remoteNone "10.1/a" "out") ∈
      bulk_download_articles implBoom remoteNone ["10.1/a", "10.2/b"] "out" ∧
    ("10.2/b", resultString implBoom remoteNone "10.2/b" "out") ∈
      bulk_download_articles implBoom remoteNone ["10.1/a", "10.2/b"] "out" :=
  ⟨(c8_batch_isolation implBoom remoteNone ["10.1/a", "10.2/b"] "out" "10.1/a"
      (by decide)).1,
   (c8_batch_isolation implBoom remoteNone ["10.1/a", "10.2/b"] "out" "10.2/b"
      (by decide)).1⟩

theorem dictInsert_shape (f : String → String) (acc : List (String × String))
    (d : String) (hacc : ∀ q ∈ acc, q.2 = f q.1) :
    ∀ q ∈ dictInsert acc d (f d), q.2 = f q.1 := by
  intro q hq
  unfold dictInsert at hq
  by_cases hany : acc.any (fun p => p.1 == d) = true
  · rw [if_pos hany] at hq
    obtain ⟨p, hp, hpq⟩ := List.mem_map.mp hq
    by_cases hpk : (p.1 == d) = true
    · rw [if_pos hpk] at hpq
      rw [← hpq]
    · rw [if_neg hpk] at hpq
      rw [← hpq]
      exact hacc p hp
  · rw [if_neg hany] at hq
    rcases List.mem_append.mp hq with hmem | hmem
    · exact hacc q hmem
    · rw [List.mem_singleton.mp hmem]

theorem bulk_fold_shape (f : String → String) (dois : List String) :
    ∀ (acc : List (String × String)), (∀ q ∈ acc, q.2 = f q.1) →
      ∀ q ∈ dois.foldl (fun results doi => dictInsert results doi (f doi)) acc,
        q.2 = f q.1 := by
  induction dois with
  | nil => intro acc hacc q hq; exact hacc q hq
  | cons d rest ih =>
    intro acc hacc
    rw [List.foldl_cons]
    exact ih (dictInsert acc d (f d)) (dictInsert_shape f acc d hacc)

/-- C10: every entry of the batch result is a plain string — the output path
on success, exactly `"ERROR: "` followed by the error message on failure —
and the end-of-run summary counts an entry as failed precisely when its value
starts with `"ERROR"`, so a genuine output path starting with `ERROR` would
be reported as failed. -/
theorem c10_error_prefix_is_failure_marker (impl : ToolImpl)
    (remote : String → Option String) (dois : List String) (outputDir : String)
    (d v : String)
    (hmem : (d, v) ∈ bulk_download_articles impl remote dois outputDir) :
    v = resultString impl remote d outputDir ∧
    (∀ e, (download_article impl remote d outputDir none none).1 = Except.error e →
      v = "ERROR: " ++ e) ∧
    (d ∈ batchFailed (bulk_download_articles impl remote dois outputDir) ↔
      v.startsWith "ERROR" = true) := by
  have hshape : v = resultString impl remote d outputDir :=
    bulk_fold_shape (fun d2 => resultString impl remote d2 outputDir)
      dois [] (by simp) (d, v) hmem
  refine ⟨hshape, fun e he => ?_, ?_, ?_⟩
  · rw [hshape]
    unfold resultString
    rw [he]
  · intro hd
    obtain ⟨q, hqf, hq1⟩ := List.mem_map.mp hd
    have hq := List.mem_filter.mp hqf
    have hqv : q.2 = resultString impl remote q.1 outputDir :=
      bulk_fold_shape (fun d2 => resultString impl remote d2 outputDir)
        dois [] (by simp) q hq.1
    rw [hq1, ← hshape] at hqv
    rw [← hqv]
    simpa using hq.2
  · intro hv
    exact List.mem_map.mpr ⟨(d, v), List.mem_filter.mpr ⟨hmem, by simpa using hv⟩, rfl⟩

/-- A tool behaviour whose successful output path itself starts with
`ERROR`, exercising the summary's prefix test. -/
def implEvil : ToolImpl := fun tool _ _ =>
  if tool == "unpaywall" then Except.ok "ERROR_dir/p.pdf" else Except.error "boom"

/-- C10 witness: a successful download whose returned path starts with
`ERROR` is classified as failed by the summary. -/
theorem c10_error_prefix_is_failure_marker_witness :
    "ERROR_dir/p.pdf" = resultString implEvil remoteNone "10.1/a" "out" ∧
    ("10.1/a" ∈ batchFailed
        (bulk_download_articles implEvil remoteNone ["10.1/a"] "out") ↔
      ("ERROR_dir/p.pdf").startsWith "ERROR" = true) :=
  ⟨(c10_error_prefix_is_failure_marker implEvil remoteNone ["10.1/a"] "out"
      "10.1/a" "ERROR_dir/p.pdf" (by decide)).1,
   (c10_error_prefix_is_failure_marker implEvil remoteNone ["10.1/a"] "out"
      "10.1/a" "ERROR_dir/p.pdf" (by decide)).2.2⟩

theorem rfindAux_lt (c : Char) : ∀ (l : List Char) (i j : Nat),
    rfindAux c l i = some j → j < i + l.length := by
  intro l
  induction l with
  | nil =>
    intro i j h
    exact absurd h (by simp [rfindAux])
  | cons x xs ih =>
    intro i j h
    unfold rfindAux at h
    cases hrec : rfindAux c xs (i + 1) with
    | some j2 =>
      rw [hrec] at h
      injection h with h
      subst h
      have := ih (i + 1) j2 hrec
      simp only [List.length_cons]
      omega
    | none =>
      rw [hrec] at h
      by_cases hx : (x == c) = true
      · rw [if_pos hx] at h
        injection h with h
        subst h
        simp only [List.length_cons]
        omega
      · rw [if_neg hx] at h
        exact absurd h (by simp)

theorem splitext_fst_of_snd_empty (p : String) (h : (splitext p).2 = "") :
    (splitext p).1 = p := by
  unfold splitext at h ⊢
  cases hdot : rfind p.data '.' with
  | none => rfl
  | some d =>
    rw [hdot] at h
    replace h : (if splitextStart p.data ≤ d then
        (if ((List.range (d - splitextStart p.data)).all
            (fun k => p.data.getD (splitextStart p.data + k) ' ' == '.')) = true then
          (p, "")
        else (String.mk (p.data.take d), String.mk (p.data.drop d)))
      else (p, "")).2 = "" := h
    show (if splitextStart p.data ≤ d then
        (if ((List.range (d - splitextStart p.data)).all
            (fun k => p.data.getD (splitextStart p.data + k) ' ' == '.')) = true then
          (p, "")
        else (String.mk (p.data.take d), String.mk (p.data.drop d)))
      else (p, "")).1 = p
    by_cases h1 : splitextStart p.data ≤ d
    · rw [if_pos h1] at h ⊢
      by_cases h2 : ((List.range (d - splitextStart p.data)).all
          (fun k => p.data.getD (splitextStart p.data + k) ' ' == '.')) = true
      · rw [if_pos h2]
      · rw [if_neg h2] at h ⊢
        exfalso
        have hd : d < p.data.length := by
          have := rfindAux_lt '.' p.data 0 d hdot
          simpa using this
        have hdrop : p.data.drop d = [] := congrArg String.data h
        have hlen : p.data.length ≤ d := List.drop_eq_nil_iff.mp hdrop
        omega
    · rw [if_neg h1]

theorem sanitize_chars (doi : String) :
    ∀ c ∈ (sanitize doi).data, allowedChar c = true := by
  intro c hc
  have hc2 : c ∈ doi.data.map (fun x => if allowedChar x then x else '_') := hc
  obtain ⟨x, _, hx⟩ := List.mem_map.mp hc2
  rw [← hx]
  by_cases hax : allowedChar x = true
  · rw [if_pos hax]
    exact hax
  · rw [if_neg hax]
    decide

/-- C7: with no explicit filename, the generated base name consists only of
allow-list characters (letters, digits, dot, underscore, hyphen) —
each identifier character outside the allow-list having been replaced by an
underscore — and for an explicit filename in which splitext finds no
extension, the appended extension is `.xml` exactly for the structured-text
tools `elsevier` and `springeropen` and `.pdf` for every other strategy. -/
theorem c7_filename_derivation (doi fname tool : String)
    (h : (splitext fname).2 = "") :
    (sanitize doi).data = doi.data.map (fun c => if allowedChar c then c else '_') ∧
    (∀ c ∈ (computeOutName none doi tool).data, allowedChar c = true) ∧
    computeOutName (some fname) doi tool = fname ++ extForTool tool ∧
    extForTool "elsevier" = ".xml" ∧
    extForTool "springeropen" = ".xml" ∧
    (["elsevier", "springeropen"].contains tool = false → extForTool tool = ".pdf") := by
  refine ⟨rfl, ?_, ?_, rfl, rfl, ?_⟩
  · intro c hc
    by_cases ht : (["elsevier", "springeropen"].contains tool) = true
    · have hco : (computeOutName none doi tool).data =
          (sanitize doi).data ++ (".xml" : String).data := by
        show (sanitize doi ++ extForTool tool).data = _
        unfold extForTool
        rw [if_pos ht, String.data_append]
      rw [hco] at hc
      rcases List.mem_append.mp hc with hcc | hcc
      · exact sanitize_chars doi c hcc
      · exact (by decide : ∀ c2 ∈ (".xml" : String).data, allowedChar c2 = true) c hcc
    · have hco : (computeOutName none doi tool).data =
          (sanitize doi).data ++ (".pdf" : String).data := by
        show (sanitize doi ++ extForTool tool).data = _
        unfold extForTool
        rw [if_neg ht, String.data_append]
      rw [hco] at hc
      rcases List.mem_append.mp hc with hcc | hcc
      · exact sanitize_chars doi c hcc
      · exact (by decide : ∀ c2 ∈ (".pdf" : String).data, allowedChar c2 = true) c hcc
  · show (if (splitext fname).2 == "" then (splitext fname).1 ++ extForTool tool
        else fname) = fname ++ extForTool tool
    rw [if_pos (show ((splitext fname).2 == "") = true by rw [h]; rfl)]
    rw [splitext_fst_of_snd_empty fname h]
  · intro h2
    unfold extForTool
    rw [h2]
    rfl

/-- C7 witness: the scenario identifier yields an allow-list-only base name,
and an extensionless explicit filename gets the strategy extension. -/
theorem c7_filename_derivation_witness :
    computeOutName (some "myfile") "10.1234/a.b" "unpaywall" =
      "myfile" ++ extForTool "unpaywall" ∧
    extForTool "elsevier" = ".xml" :=
  ⟨(c7_filename_derivation "10.1234/a.b" "myfile" "unpaywall" (by decide)).2.2.1,
   (c7_filename_derivation "10.1234/a.b" "myfile" "unpaywall" (by decide)).2.2.2.1⟩

end Downloader
